import Mathlib

/-
  Shallow embedding of the go-gadgets/eventsourcing library core,
  translated from the Go sources:

  - aggregate_base.go       : AggregateBase runtime (second, command-aware variant)
  - registry_standard.go    : standardEventRegistry
  - helpers.go              : Retry, NormalizeEventName
  - fault.go                : ConcurrencyFault and IsConcurrencyFault
  - stores/in-memory        : in-memory EventStore (streams map)
  - stores/key-value        : key-value engine (CommitEvents, assignEventKeys)
  - stores/memory           : memory driver for the key-value engine
  - stores/middleware/snapbase/middleware.go : snapshot-base commit and refresh
  - middleware wrapper      : wrapper.Close

  Modelling conventions:
  - Go int64 sequence numbers are modelled as unbounded Int; the claims under
    study never exercise 64-bit wraparound (every operation moves a counter by
    at most one and buffers are finite lists).
  - Go maps are modelled as functions into Option, map-insert as pointwise
    update; Go map lookup (v, ok) becomes Option.
  - JSON marshal/unmarshal of an event value is modelled as the identity
    round-trip (the stores only ever decode what they themselves encoded);
    snapshot-state marshalling, which can genuinely fail on exotic states, is
    modelled as an Option-valued parameter.
  - Effectful driver callbacks (putEvents, purge, cleanup closures) are
    modelled by returning, next to the result, a trace of the invocations that
    occurred, so that never-invoked is expressible.
-/

namespace EventSourcing

/-- Error values (fault.go plus the fmt.Errorf cases used by the stores). -/
inductive GoErr where
  | concurrencyFault (key : String) (seq : Int)
  | domainFault (key : String) (code : String)
  | storeError (msg : String)
  | decodeError
  | custom (code : Nat)
deriving DecidableEq

/-- IsConcurrencyFault from fault.go: a type test on the error value. -/
def IsConcurrencyFault : GoErr → Bool
  | .concurrencyFault _ _ => true
  | _ => false

/-- An event value: its Go reflect type string plus an opaque payload.
`typeName` plays the role of reflect.TypeOf(event).String(). -/
structure GoEvent where
  typeName : String
  data : Nat
deriving DecidableEq

/-- EventType is a string alias (interfaces.go). -/
abbrev EventType := String

/-- strings.Split for a one-character separator, over the character list of
the string (an empty input yields the singleton empty segment, as in Go). -/
def splitOnChar (sep : Char) : List Char → List (List Char)
  | [] => [[]]
  | c :: rest =>
      let tail := splitOnChar sep rest
      if c = sep then [] :: tail
      else
        match tail with
        | [] => [[c]]
        | t :: ts => (c :: t) :: ts

/-- strings.HasPrefix. -/
def hasPrefixGo (s pre : String) : Bool :=
  List.isPrefixOf pre.data s.data

/-- NormalizeEventName from helpers.go: split on the dots and keep the last
segment (strings.Split never yields an empty slice, so the default is inert). -/
def NormalizeEventName (name : String) : String :=
  String.mk ((splitOnChar ('.') name.data).getLastD name.data)

/-- The standardEventRegistry (registry_standard.go), reduced to what the
claims observe: the set of registered labels. RegisterEvent keys the map by
the normalized type name. -/
def Registry := List String

/-- RegisterEvent: store the type under its normalized label. -/
def RegisterEvent (reg : Registry) (typeName : String) : Registry :=
  NormalizeEventName typeName :: reg

/-- GetEventType (registry_standard.go lines 53-60): normalize the instance
type name, look it up, and return the label together with the found flag. -/
def GetEventType (reg : Registry) (e : GoEvent) : EventType × Bool :=
  let n := NormalizeEventName e.typeName
  (n, List.contains reg n)

/-- A reflected method of the concrete aggregate, as buildReplayMappings sees
it: name, arity data from reflect.Type, the reflect string of parameter In(1),
and the state transformation performed when Func.Call fires on the receiver. -/
structure GoMethod (σ : Type) where
  name : String
  numIn : Nat
  numOut : Nat
  paramTypeName : String
  run : σ → GoEvent → σ

/-- buildReplayMappings (aggregate_base.go lines 571-602): keep methods whose
name starts with the Replay prefix and whose shape is two inputs / zero
outputs, and key them by candidate.Type.In(1).String() — the raw, unnormalized
reflect string. Later methods overwrite earlier ones on the same key, hence
the reverse-find. -/
def buildReplayMappings {σ : Type} (methods : List (GoMethod σ)) :
    EventType → Option (σ → GoEvent → σ) :=
  fun et =>
    ((methods.filter (fun m =>
        hasPrefixGo m.name ("Replay") && m.numIn == 2 && m.numOut == 0)).reverse.find?
      (fun m => m.paramTypeName == et)).map (fun m => m.run)

/-- The AggregateBase record (aggregate_base.go, second variant), with the
derived aggregate state folded in as the σ field that the replay closures
mutate through the receiver. -/
structure AggregateBase (σ : Type) where
  key : String
  committedSequenceNumber : Int
  sequenceNumber : Int
  eventReplay : EventType → Option (σ → GoEvent → σ)
  eventRegistry : Registry
  uncommittedEvents : List GoEvent
  state : σ

/-- AggregateBase.Initialize: zero both counters, clear tables and buffer. -/
def initAgg {σ : Type} (key : String) (reg : Registry) (st : σ) : AggregateBase σ :=
  { key := key
    committedSequenceNumber := 0
    sequenceNumber := 0
    eventReplay := fun _ => none
    eventRegistry := reg
    uncommittedEvents := []
    state := st }

/-- AggregateBase.DefineReplayMethod: point insert into the replay map. -/
def DefineReplayMethod {σ : Type} (agg : AggregateBase σ) (et : EventType)
    (f : σ → GoEvent → σ) : AggregateBase σ :=
  { agg with eventReplay := fun x => if x = et then some f else agg.eventReplay x }

/-- AggregateBase.AutomaticWireup restricted to the replay side: replace the
replay table with the one built from the subject methods. -/
def AutomaticWireup {σ : Type} (agg : AggregateBase σ) (methods : List (GoMethod σ)) :
    AggregateBase σ :=
  { agg with eventReplay := buildReplayMappings methods }

/-- applyEventInternal (aggregate_base.go lines 435-459): the deferred
sequence bump always happens; the replay function fires only when the
registry knows the event and the replay table maps its label. -/
def applyEventInternal {σ : Type} (agg : AggregateBase σ) (event : GoEvent) :
    AggregateBase σ :=
  let lookup := GetEventType agg.eventRegistry event
  let agg1 :=
    if lookup.2 then
      match agg.eventReplay lookup.1 with
      | some f => { agg with state := f agg.state event }
      | none => agg
    else agg
  { agg1 with sequenceNumber := agg1.sequenceNumber + 1 }

/-- ApplyEvent (aggregate_base.go lines 430-433): internal application, then
append to the uncommitted buffer. -/
def ApplyEvent {σ : Type} (agg : AggregateBase σ) (event : GoEvent) : AggregateBase σ :=
  let a := applyEventInternal agg event
  { a with uncommittedEvents := a.uncommittedEvents ++ [event] }

/-- ReplayEvent (loader adapter, aggregate_base.go lines 631-635): internal
application plus a committed-sequence bump; no buffering. -/
def ReplayEvent {σ : Type} (agg : AggregateBase σ) (event : GoEvent) : AggregateBase σ :=
  let a := applyEventInternal agg event
  { a with committedSequenceNumber := a.committedSequenceNumber + 1 }

/-- RestoreSnapshot (loader adapter): the mapstructure decode either produces
a decoded state (both counters are then set to the snapshot sequence) or
fails (counters and buffer untouched, error surfaced). -/
def RestoreSnapshot {σ : Type} (agg : AggregateBase σ) (sequence : Int)
    (decoded : Option σ) : AggregateBase σ × Option GoErr :=
  match decoded with
  | some st =>
      ({ agg with state := st
                  sequenceNumber := sequence
                  committedSequenceNumber := sequence }, none)
  | none => (agg, some .decodeError)

/-- The success/failure core of AggregateBase.Commit (lines 489-503), given
the error value the store returned for this call: on error, hand it back with
the aggregate untouched; on success, clear the buffer and promote the
committed counter. -/
def CommitResult {σ : Type} (agg : AggregateBase σ) (r : Option GoErr) :
    AggregateBase σ × Option GoErr :=
  match r with
  | some e => (agg, some e)
  | none =>
      ({ agg with uncommittedEvents := []
                  committedSequenceNumber := agg.sequenceNumber }, none)

/-- AggregateBase.Commit wired to an actual store: the store sees the
write-adapter data (key, registry, committed sequence, uncommitted events,
state) plus its own state ρ, and the aggregate reacts to the returned error
exactly as in CommitResult. -/
def CommitThrough {σ ρ : Type}
    (commitEvents : String → Registry → Int → List GoEvent → σ → ρ → Option GoErr × ρ)
    (agg : AggregateBase σ) (st : ρ) : AggregateBase σ × ρ × Option GoErr :=
  let r := commitEvents agg.key agg.eventRegistry agg.committedSequenceNumber
      agg.uncommittedEvents agg.state st
  let c := CommitResult agg r.1
  (c.1, r.2, c.2)

/-- An item of the in-memory store (stores/in-memory): the stored label plus
the JSON body, modelled as the event value itself (identity round-trip). -/
structure InMemItem where
  eventType : EventType
  body : GoEvent
deriving DecidableEq

/-- The streams map of the in-memory store. Absent key and present key are
distinguished, as in the Go map lookup. -/
def InMemStreams := String → Option (List InMemItem)

/-- The write loop of the in-memory CommitEvents: look up each event type and
append; an unknown type aborts before the stream is written back. -/
def inmemPutLoop (reg : Registry) : List GoEvent → List InMemItem →
    Except GoErr (List InMemItem)
  | [], stream => .ok stream
  | e :: rest, stream =>
      let lookup := GetEventType reg e
      if lookup.2 then inmemPutLoop reg rest (stream ++ [⟨lookup.1, e⟩])
      else .error (.storeError ("Could not find event type to store"))

/-- CommitEvents of the in-memory store: empty buffer exits at once; a missing
stream is acceptable only at sequence zero; writing past the end is a store
error; writing over existing entries is a ConcurrencyFault; otherwise the
events are appended and the stream written back. -/
def inmemCommitEvents {σ : Type} (key : String) (reg : Registry) (start : Int)
    (uncommitted : List GoEvent) (_state : σ) (st : InMemStreams) :
    Option GoErr × InMemStreams :=
  if uncommitted.isEmpty then (none, st)
  else
    let write : List InMemItem → Option GoErr × InMemStreams := fun stream =>
      match inmemPutLoop reg uncommitted stream with
      | .error e => (some e, st)
      | .ok stream2 => (none, fun k => if k = key then some stream2 else st k)
    match st key with
    | none =>
        if start = 0 then write []
        else (some (.storeError ("Cannot store events, the stream does not exist")), st)
    | some stream =>
        if start > (stream.length : Int) then
          (some (.storeError ("Cannot store events past the end of the stream")), st)
        else if start < (stream.length : Int) then
          (some (.concurrencyFault key start), st)
        else write stream

/-- A keyed event of the key-value engine (stores/key-value). -/
structure KeyedEvent where
  key : String
  sequence : Int
  eventType : EventType
  eventData : GoEvent
deriving DecidableEq

/-- The indexed loop of assignEventKeys: the event at position index receives
sequence seq + (1 + index); an unregistered label aborts the whole remap. -/
def assignEventKeysAux (key : String) (seq : Int) (reg : Registry) :
    List GoEvent → Nat → Except GoErr (List KeyedEvent)
  | [], _ => .ok []
  | e :: rest, index =>
      let lookup := GetEventType reg e
      if lookup.2 then
        match assignEventKeysAux key seq reg rest (index + 1) with
        | .ok tail =>
            .ok (⟨key, seq + (1 + (index : Int)), lookup.1, e⟩ :: tail)
        | .error err => .error err
      else .error (.storeError ("Could not find specified event type"))

/-- assignEventKeys (stores/key-value, lines 157-175). -/
def assignEventKeys (key : String) (seq : Int) (reg : Registry)
    (events : List GoEvent) : Except GoErr (List KeyedEvent) :=
  assignEventKeysAux key seq reg events 0

/-- The four driver callbacks of the key-value engine, over a driver state ρ.
checkSequence is read-only in every driver; putEvents may mutate. -/
structure KVOptions (ρ : Type) where
  checkSequence : String → Int → ρ → Bool × Option GoErr
  putEvents : List KeyedEvent → ρ → Option GoErr × ρ

/-- CommitEvents of the key-value engine (stores/key-value, lines 71-104).
The third component is the trace of putEvents invocations, so that a failure
before the put is visibly put-free. -/
def kvCommitEvents {ρ : Type} (opts : KVOptions ρ) (key : String) (reg : Registry)
    (start : Int) (events : List GoEvent) (st : ρ) :
    Option GoErr × ρ × List (List KeyedEvent) :=
  let proceed : Option GoErr × ρ × List (List KeyedEvent) :=
    match assignEventKeys key start reg events with
    | .error e => (some e, st, [])
    | .ok remapped =>
        let r := opts.putEvents remapped st
        (r.1, r.2, [remapped])
  if start > 0 then
    let c := opts.checkSequence key start st
    match c.2 with
    | some e => (some e, st, [])
    | none =>
        if c.1 then proceed
        else (some (.storeError ("Cannot store with no value at the prior sequence")), st, [])
  else proceed

/-- The key-value engine as a store function for CommitThrough (the adapter
exposes the same writer data; the put trace is dropped there). -/
def kvStoreFn {σ ρ : Type} (opts : KVOptions ρ) :
    String → Registry → Int → List GoEvent → σ → ρ → Option GoErr × ρ :=
  fun key reg start events _ st =>
    let r := kvCommitEvents opts key reg start events st
    (r.1, r.2.1)

/-- An item of the memory driver (stores/memory): label plus marshalled body,
the latter modelled as the event value (identity round-trip). -/
structure MemItem where
  eventType : EventType
  body : GoEvent
deriving DecidableEq

/-- The streams map of the memory driver. -/
def MemStreams := String → Option (List MemItem)

/-- checkExists of the memory driver: a missing stream reports false; else
the stream length must reach the probed sequence. -/
def memCheckExists (key : String) (seq : Int) (st : MemStreams) : Bool × Option GoErr :=
  match st key with
  | none => (false, none)
  | some stream => (decide (seq ≤ (stream.length : Int)), none)

/-- putEvents of the memory driver: per event, fault if the stream already
reaches the target slot, else append and write back; earlier appends of the
same call survive a later fault, as in the Go loop. -/
def memPutEvents : List KeyedEvent → MemStreams → Option GoErr × MemStreams
  | [], st => (none, st)
  | evt :: rest, st =>
      let stream := (st evt.key).getD []
      if (stream.length : Int) > evt.sequence - 1 then
        (some (.concurrencyFault evt.key evt.sequence), st)
      else
        memPutEvents rest
          (fun k => if k = evt.key then some (stream ++ [⟨evt.eventType, evt.eventData⟩]) else st k)

/-- The memory driver packaged as engine options. -/
def memOptions : KVOptions MemStreams :=
  { checkSequence := memCheckExists
    putEvents := memPutEvents }

/-- The commit wrapper of the snapshot base
(stores/middleware/snapbase/middleware.go lines 53-95). Inputs stand for the
results of the effectful calls: innerResult for next(), purgeResult for
purge(key), marshalled for the marshal-then-clone round trip of the state,
putResult for put. Outputs: the returned error, the trace of put invocations
(key, sequence, snapshot), and the trace of purge invocations. -/
def snapbaseCommit (lazy : Bool) (interval : Int) (key : String) (start : Int)
    (events : List GoEvent) (innerResult : Option GoErr) (purgeResult : Option GoErr)
    (marshalled : Option Nat) (putResult : Option GoErr) :
    Option GoErr × List (String × Int × Nat) × List String :=
  match innerResult with
  | some e =>
      if IsConcurrencyFault e && lazy then
        match purgeResult with
        | some pe => (some pe, [], [key])
        | none => (some e, [], [key])
      else (some e, [], [])
  | none =>
      let eventCount : Int := events.length
      let nextSnap := start - Int.tmod start interval + interval
      if lazy || decide (start + eventCount ≥ nextSnap) then
        match marshalled with
        | none => (some .decodeError, [], [])
        | some snap => (putResult, [(key, start + eventCount, snap)], [])
      else (none, [], [])

/-- The refresh wrapper of the snapshot base (middleware.go lines 98-126).
getResult stands for get(key) — error, no snapshot, or a snapshot with its
sequence; restoreResult for reader.RestoreSnapshot; nextResult for next().
Output: the returned error, whether RestoreSnapshot was invoked, and whether
next() was invoked. The source returns nil when RestoreSnapshot fails. -/
def snapbaseRefresh (lazy : Bool) (dirty : Bool) (getResult : Except GoErr (Option (Nat × Int)))
    (restoreResult : Option GoErr) (nextResult : Option GoErr) :
    Option GoErr × Bool × Bool :=
  if dirty then (some (.storeError ("Aggregate is modified")), false, false)
  else
    match getResult with
    | .error e => (some e, false, false)
    | .ok none => (nextResult, false, true)
    | .ok (some _) =>
        match restoreResult with
        | some _ => (none, true, false)
        | none =>
            if lazy then (none, true, false)
            else (nextResult, true, true)

/-- wrapper.Close (middleware wrapper): run the cleanup callbacks in
registration order, stopping at the first error; the inner Close runs only
when every cleanup succeeded. Each callback is (identifier, returned error);
the output is the trace of executed callback identifiers, whether the inner
Close ran, and the returned error. -/
def wrapperClose : List (Nat × Option GoErr) → Option GoErr →
    List Nat × Bool × Option GoErr
  | [], inner => ([], true, inner)
  | (id, r) :: rest, inner =>
      match r with
      | some e => ([id], false, some e)
      | none =>
          let out := wrapperClose rest inner
          (id :: out.1, out.2.1, out.2.2)

/-- The loop of Retry (helpers.go lines 5-30), with the loop counter made
explicit and a fuel bound on the number of iterations modelled. body reads
the current counter value (the calls are at counts 1, 2, ...). The result,
when the loop has exited within the fuel, is the returned error together
with the number of body invocations consumed; none means the loop was still
running after the fuel ran out. -/
def retryIter (body : Int → Option GoErr) (limit : Int) :
    Int → Nat → Option (Option GoErr × Nat)
  | _, 0 => none
  | count, fuel + 1 =>
      match body count with
      | none => some (none, 1)
      | some e =>
          if IsConcurrencyFault e then
            if count = limit then some (some e, 1)
            else
              match retryIter body limit (count + 1) fuel with
              | none => none
              | some (r, n) => some (r, n + 1)
          else some (some e, 1)

/-- Retry (helpers.go): start the loop at count 1. The fuel limit.toNat is
always sufficient for positive limits (C7 below); for limit at most zero the
loop never exits no matter the fuel. -/
def Retry (limit : Int) (body : Int → Option GoErr) : Option (Option GoErr × Nat) :=
  retryIter body limit 1 limit.toNat

/-- Aggregate states reachable from Initialize through the runtime operations:
replay-table setup, ApplyEvent, Commit with an arbitrary store outcome,
ReplayEvent, and RestoreSnapshot with an arbitrary decode outcome. -/
inductive Reach {σ : Type} : AggregateBase σ → Prop where
  | init (key : String) (reg : Registry) (st : σ) : Reach (initAgg key reg st)
  | defineReplay {a : AggregateBase σ} (et : EventType) (f : σ → GoEvent → σ) :
      Reach a → Reach (DefineReplayMethod a et f)
  | wireup {a : AggregateBase σ} (methods : List (GoMethod σ)) :
      Reach a → Reach (AutomaticWireup a methods)
  | apply {a : AggregateBase σ} (e : GoEvent) : Reach a → Reach (ApplyEvent a e)
  | commit {a : AggregateBase σ} (r : Option GoErr) : Reach a → Reach (CommitResult a r).1
  | replay {a : AggregateBase σ} (e : GoEvent) : Reach a → Reach (ReplayEvent a e)
  | restore {a : AggregateBase σ} (seq : Int) (decoded : Option σ) :
      Reach a → Reach (RestoreSnapshot a seq decoded).1

/-- Same reachable set, but RestoreSnapshot is taken only on clean aggregates
(empty uncommitted buffer) — which is how every store invokes it, behind the
IsDirty gate of the refresh paths. -/
inductive ReachClean {σ : Type} : AggregateBase σ → Prop where
  | init (key : String) (reg : Registry) (st : σ) : ReachClean (initAgg key reg st)
  | defineReplay {a : AggregateBase σ} (et : EventType) (f : σ → GoEvent → σ) :
      ReachClean a → ReachClean (DefineReplayMethod a et f)
  | wireup {a : AggregateBase σ} (methods : List (GoMethod σ)) :
      ReachClean a → ReachClean (AutomaticWireup a methods)
  | apply {a : AggregateBase σ} (e : GoEvent) : ReachClean a → ReachClean (ApplyEvent a e)
  | commit {a : AggregateBase σ} (r : Option GoErr) :
      ReachClean a → ReachClean (CommitResult a r).1
  | replay {a : AggregateBase σ} (e : GoEvent) : ReachClean a → ReachClean (ReplayEvent a e)
  | restore {a : AggregateBase σ} (seq : Int) (decoded : Option σ)
      (hclean : a.uncommittedEvents = []) :
      ReachClean a → ReachClean (RestoreSnapshot a seq decoded).1

/-- Fixture for C1: the reflected ReplayInitializeEvent method of a test
aggregate over an Int-valued derived state, as AutomaticWireup sees it. The
replay body sets the state to 3 (the TargetValue of the aggregate tests). -/
def c1Method : GoMethod Int :=
  ⟨"ReplayInitializeEvent", 2, 0, "eventsourcing.InitializeEvent", fun _ _ => 3⟩

/-- Fixture for C1: the method set of the test aggregate. -/
def c1Methods : List (GoMethod Int) := [c1Method]

/-- Fixture for C1: the registry after RegisterEvent(InitializeEvent), which
stores the normalized simple name. -/
def c1Registry : Registry := RegisterEvent [] ("eventsourcing.InitializeEvent")

/-- Fixture for C1: the wired-up aggregate. -/
def c1Agg : AggregateBase Int := AutomaticWireup (initAgg ("k1") c1Registry 0) c1Methods

/-- Fixture for C1: an InitializeEvent instance arriving at the aggregate. -/
def c1Event : GoEvent := ⟨"eventsourcing.InitializeEvent", 0⟩

/-- Fixture for C3: the state after Initialize, one ApplyEvent, and a
successful RestoreSnapshot at sequence 5 taken while the buffer is dirty. -/
def c3BadState : AggregateBase Int :=
  (RestoreSnapshot (ApplyEvent (initAgg ("k") [] 0) ⟨"E", 0⟩) 5 (some 0)).1

theorem applyEventInternal_fields {σ : Type} (agg : AggregateBase σ) (e : GoEvent) :
    (applyEventInternal agg e).sequenceNumber = agg.sequenceNumber + 1 ∧
    (applyEventInternal agg e).committedSequenceNumber = agg.committedSequenceNumber ∧
    (applyEventInternal agg e).uncommittedEvents = agg.uncommittedEvents ∧
    (applyEventInternal agg e).key = agg.key ∧
    (applyEventInternal agg e).eventRegistry = agg.eventRegistry ∧
    (applyEventInternal agg e).eventReplay = agg.eventReplay := by
  unfold applyEventInternal
  dsimp only
  cases hf : (GetEventType agg.eventRegistry e).2
  · simp
  · simp
    cases agg.eventReplay (GetEventType agg.eventRegistry e).1 <;> simp

theorem ApplyEvent_fields {σ : Type} (agg : AggregateBase σ) (e : GoEvent) :
    (ApplyEvent agg e).sequenceNumber = agg.sequenceNumber + 1 ∧
    (ApplyEvent agg e).committedSequenceNumber = agg.committedSequenceNumber ∧
    (ApplyEvent agg e).uncommittedEvents = agg.uncommittedEvents ++ [e] := by
  obtain ⟨h1, h2, h3, _⟩ := applyEventInternal_fields agg e
  unfold ApplyEvent
  dsimp only
  exact ⟨h1, h2, by rw [h3]⟩

theorem ReplayEvent_fields {σ : Type} (agg : AggregateBase σ) (e : GoEvent) :
    (ReplayEvent agg e).sequenceNumber = agg.sequenceNumber + 1 ∧
    (ReplayEvent agg e).committedSequenceNumber = agg.committedSequenceNumber + 1 ∧
    (ReplayEvent agg e).uncommittedEvents = agg.uncommittedEvents := by
  obtain ⟨h1, h2, h3, _⟩ := applyEventInternal_fields agg e
  unfold ReplayEvent
  dsimp only
  exact ⟨h1, by rw [h2], h3⟩

theorem applyEventInternal_unmapped {σ : Type} (agg : AggregateBase σ) (e : GoEvent)
    (h : (GetEventType agg.eventRegistry e).2 = false ∨
         agg.eventReplay (GetEventType agg.eventRegistry e).1 = none) :
    applyEventInternal agg e = { agg with sequenceNumber := agg.sequenceNumber + 1 } := by
  unfold applyEventInternal
  dsimp only
  rcases h with h | h
  · rw [h]; simp
  · cases hf : (GetEventType agg.eventRegistry e).2
    · rfl
    · rw [h]; simp

/-- C1. The convention-dispatch claim fails on the event side: the registry
label of a registered event is the normalized simple name, while the replay
table built by AutomaticWireup keys the matching Replay method by the raw
package-qualified reflect name. Evaluated at the failing input: the method
matches the prescribed shape, the event is registered, yet applyEvent leaves
the derived state at 0 (the wired body would set it to 3) and only bumps the
sequence — the matching method is never invoked. -/
theorem C1_wireup_normalization_bug :
    (hasPrefixGo c1Method.name ("Replay") = true ∧ c1Method.numIn = 2 ∧ c1Method.numOut = 0) ∧
    GetEventType c1Registry c1Event = ("InitializeEvent", true) ∧
    buildReplayMappings c1Methods ("InitializeEvent") = none ∧
    (ApplyEvent c1Agg c1Event).state = 0 ∧
    (ApplyEvent c1Agg c1Event).sequenceNumber = 1 ∧
    c1Method.run c1Agg.state c1Event = 3 := by
  refine ⟨⟨rfl, rfl, rfl⟩, by decide, rfl, by decide, by decide, rfl⟩

/-- C2. Commit is atomic for the in-memory aggregate state: when the store
returns an error, Commit surfaces that very error and the whole aggregate
record (buffer, sequence counters, everything) is untouched; when the store
succeeds, the buffer is cleared and committedSequenceNumber is promoted to
sequenceNumber, which itself does not move. -/
theorem C2_commit_atomic {σ ρ : Type}
    (f : String → Registry → Int → List GoEvent → σ → ρ → Option GoErr × ρ)
    (agg : AggregateBase σ) (st : ρ) :
    (∀ e, (f agg.key agg.eventRegistry agg.committedSequenceNumber agg.uncommittedEvents
        agg.state st).1 = some e →
      (CommitThrough f agg st).2.2 = some e ∧ (CommitThrough f agg st).1 = agg) ∧
    ((f agg.key agg.eventRegistry agg.committedSequenceNumber agg.uncommittedEvents
        agg.state st).1 = none →
      (CommitThrough f agg st).2.2 = none ∧
      (CommitThrough f agg st).1.uncommittedEvents = [] ∧
      (CommitThrough f agg st).1.committedSequenceNumber = agg.sequenceNumber ∧
      (CommitThrough f agg st).1.sequenceNumber = agg.sequenceNumber) := by
  unfold CommitThrough CommitResult
  constructor
  · intro e he
    simp [he]
  · intro he
    simp [he]

/-- C3, amended. The ordering committedSequenceNumber ≤ sequenceNumber holds
in every state reachable by the four aggregate operations; the exact buffer
accounting sequenceNumber − committedSequenceNumber = |uncommitted| holds for
every state reachable when RestoreSnapshot is performed only on a clean
aggregate, which is how the stores drive it behind their IsDirty gates. -/
theorem C3_sequence_invariant :
    (∀ (σ : Type) (a : AggregateBase σ), Reach a →
        a.committedSequenceNumber ≤ a.sequenceNumber) ∧
    (∀ (σ : Type) (a : AggregateBase σ), ReachClean a →
        a.committedSequenceNumber ≤ a.sequenceNumber ∧
        a.sequenceNumber - a.committedSequenceNumber = (a.uncommittedEvents.length : Int)) := by
  constructor
  · intro σ a h
    induction h with
    | init key reg st => simp [initAgg]
    | defineReplay et f hr ih => simpa [DefineReplayMethod] using ih
    | wireup methods hr ih => simpa [AutomaticWireup] using ih
    | apply e hr ih =>
        rename_i a2
        obtain ⟨h1, h2, _⟩ := ApplyEvent_fields a2 e
        rw [h1, h2]; omega
    | commit r hr ih =>
        rename_i a2
        cases r with
        | some e => simpa [CommitResult] using ih
        | none => simp [CommitResult]
    | replay e hr ih =>
        rename_i a2
        obtain ⟨h1, h2, _⟩ := ReplayEvent_fields a2 e
        rw [h1, h2]; omega
    | restore seq decoded hr ih =>
        rename_i a2
        cases decoded with
        | some st => simp [RestoreSnapshot]
        | none => simpa [RestoreSnapshot] using ih
  · intro σ a h
    induction h with
    | init key reg st => simp [initAgg]
    | defineReplay et f hr ih => simpa [DefineReplayMethod] using ih
    | wireup methods hr ih => simpa [AutomaticWireup] using ih
    | apply e hr ih =>
        rename_i a2
        obtain ⟨h1, h2, h3⟩ := ApplyEvent_fields a2 e
        rw [h1, h2, h3]
        simp
        omega
    | commit r hr ih =>
        rename_i a2
        cases r with
        | some e => simpa [CommitResult] using ih
        | none => simp [CommitResult]
    | replay e hr ih =>
        rename_i a2
        obtain ⟨h1, h2, h3⟩ := ReplayEvent_fields a2 e
        rw [h1, h2, h3]
        omega
    | restore seq decoded hclean hr ih =>
        rename_i a2
        cases decoded with
        | some st => simp [RestoreSnapshot, hclean]
        | none => simpa [RestoreSnapshot] using ih

/-- C3 counterexample. With the operations exactly as the claim lists them,
a successful RestoreSnapshot taken while the uncommitted buffer is nonempty
reaches a state where the buffer accounting equality fails: after Initialize,
one ApplyEvent and a RestoreSnapshot at sequence 5, both counters are 5 but
the buffer still holds one event. -/
theorem C3_restore_dirty_counterexample :
    Reach c3BadState ∧
    ¬ (c3BadState.sequenceNumber - c3BadState.committedSequenceNumber =
        (c3BadState.uncommittedEvents.length : Int)) := by
  constructor
  · exact Reach.restore 5 (some 0) (Reach.apply _ (Reach.init ("k") [] 0))
  · decide

/-- C5. Ignore-unmapped: when the event type is unknown to the registry, or
known but absent from the replay table, ApplyEvent bumps the sequence number
by exactly one, leaves the derived state and the committed counter untouched,
and still appends the event to the uncommitted buffer. -/
theorem C5_ignore_unmapped {σ : Type} (agg : AggregateBase σ) (e : GoEvent)
    (h : (GetEventType agg.eventRegistry e).2 = false ∨
         agg.eventReplay (GetEventType agg.eventRegistry e).1 = none) :
    (ApplyEvent agg e).sequenceNumber = agg.sequenceNumber + 1 ∧
    (ApplyEvent agg e).state = agg.state ∧
    (ApplyEvent agg e).uncommittedEvents = agg.uncommittedEvents ++ [e] ∧
    (ApplyEvent agg e).committedSequenceNumber = agg.committedSequenceNumber := by
  unfold ApplyEvent
  rw [applyEventInternal_unmapped agg e h]
  exact ⟨rfl, rfl, rfl, rfl⟩

theorem assignEventKeysAux_ok (key : String) (seq : Int) (reg : Registry) :
    ∀ (events : List GoEvent) (start : Nat),
      (∀ e ∈ events, (GetEventType reg e).2 = true) →
      assignEventKeysAux key seq reg events start =
        .ok ((events.enumFrom start).map fun p =>
          ⟨key, seq + (1 + (p.1 : Int)), (GetEventType reg p.2).1, p.2⟩) := by
  intro events
  induction events with
  | nil => intro start h; rfl
  | cons e rest ih =>
      intro start h
      have he := h e (by simp)
      unfold assignEventKeysAux
      dsimp only
      rw [ih (start + 1) (fun x hx => h x (by simp [hx]))]
      simp [he, List.enumFrom]

theorem assignEventKeysAux_err (key : String) (seq : Int) (reg : Registry) :
    ∀ (events : List GoEvent) (start : Nat),
      (∃ e ∈ events, (GetEventType reg e).2 = false) →
      ∃ err, assignEventKeysAux key seq reg events start = .error err := by
  intro events
  induction events with
  | nil => intro start h; simp at h
  | cons e rest ih =>
      intro start h
      unfold assignEventKeysAux
      dsimp only
      by_cases he : (GetEventType reg e).2 = true
      · obtain ⟨x, hx, hxf⟩ := h
        cases hx with
        | head => rw [hxf] at he; simp at he
        | tail _ hx2 =>
            obtain ⟨err, herr⟩ := ih (start + 1) ⟨x, hx2, hxf⟩
            refine ⟨err, ?_⟩
            simp [he, herr]
      · simp at he
        refine ⟨GoErr.storeError ("Could not find specified event type"), ?_⟩
        simp [he]

/-- C4. When every label is registered, the key-value engine remaps the i-th
uncommitted event to a keyed event with sequence start + 1 + i (in order), and
CommitEvents hands exactly that keyed list to putEvents (given the prior-
sequence check passes or start is 0, as the engine requires). When some label
is unregistered, CommitEvents returns an error and putEvents is never
invoked, whatever checkSequence does. -/
theorem C4_kv_commit_assigns_sequences {ρ : Type} (opts : KVOptions ρ) (key : String)
    (reg : Registry) (start : Int) (events : List GoEvent) (st : ρ) :
    ((∀ e ∈ events, (GetEventType reg e).2 = true) →
      assignEventKeys key start reg events =
        .ok (events.enum.map fun p =>
          ⟨key, start + (1 + (p.1 : Int)), (GetEventType reg p.2).1, p.2⟩) ∧
      ((start = 0 ∨ opts.checkSequence key start st = (true, none)) →
        kvCommitEvents opts key reg start events st =
          ((opts.putEvents (events.enum.map fun p =>
              ⟨key, start + (1 + (p.1 : Int)), (GetEventType reg p.2).1, p.2⟩) st).1,
           (opts.putEvents (events.enum.map fun p =>
              ⟨key, start + (1 + (p.1 : Int)), (GetEventType reg p.2).1, p.2⟩) st).2,
           [events.enum.map fun p =>
              ⟨key, start + (1 + (p.1 : Int)), (GetEventType reg p.2).1, p.2⟩]))) ∧
    ((∃ e ∈ events, (GetEventType reg e).2 = false) →
      (kvCommitEvents opts key reg start events st).2.2 = [] ∧
      (kvCommitEvents opts key reg start events st).1.isSome = true) := by
  constructor
  · intro hall
    have hok2 : assignEventKeys key start reg events =
        .ok (events.enum.map fun p =>
          ⟨key, start + (1 + (p.1 : Int)), (GetEventType reg p.2).1, p.2⟩) :=
      assignEventKeysAux_ok key start reg events 0 hall
    refine ⟨hok2, ?_⟩
    intro hstart
    unfold kvCommitEvents
    dsimp only
    rcases hstart with h0 | hchk
    · subst h0
      simp [hok2]
    · by_cases hpos : start > 0
      · simp [hpos, hchk, hok2]
      · simp [hpos, hok2]
  · intro hbad
    obtain ⟨err, herr⟩ := assignEventKeysAux_err key start reg events 0 hbad
    have herr2 : assignEventKeys key start reg events = .error err := herr
    unfold kvCommitEvents
    dsimp only
    by_cases hpos : start > 0
    · rcases hc : opts.checkSequence key start st with ⟨cb, ce⟩
      cases ce with
      | some e => simp [hpos, hc]
      | none =>
          cases cb with
          | true => simp [hpos, hc, herr2]
          | false => simp [hpos, hc]
    · simp [hpos, herr2]

/-- C6. After a successful inner commit with nonnegative committed sequence
start, n uncommitted events and positive interval, the snapshot-base commit
wrapper writes a snapshot at sequence start + n exactly when lazy holds or
start + n reaches the boundary start − (start mod interval) + interval; in
particular, in non-lazy mode a commit of exactly interval events from start 0
produces a snapshot at sequence interval. -/
theorem C6_snapshot_boundary (lazy : Bool) (interval : Int) (key : String) (start : Int)
    (events : List GoEvent) (purgeResult putResult : Option GoErr) (snap : Nat)
    (hs : 0 ≤ start) (hi : 1 ≤ interval) :
    ((snapbaseCommit lazy interval key start events none purgeResult (some snap) putResult).2.1
        = [(key, start + (events.length : Int), snap)]
      ↔ (lazy = true ∨
          start + (events.length : Int) ≥ start - start % interval + interval)) ∧
    (lazy = false → start = 0 → (events.length : Int) = interval →
      (snapbaseCommit lazy interval key start events none purgeResult (some snap) putResult).2.1
        = [(key, interval, snap)]) := by
  have htm : Int.tmod start interval = start % interval := Int.tmod_eq_emod hs (by omega)
  constructor
  · unfold snapbaseCommit
    dsimp only
    rw [htm]
    by_cases hl : lazy = true
    · simp [hl]
    · by_cases hcond :
        start + (events.length : Int) ≥ start - start % interval + interval
      · simp [hl, hcond]
      · simp [hl, hcond]
  · intro hlf h0 hn
    unfold snapbaseCommit
    dsimp only
    rw [htm]
    subst h0
    have hz : (0 : Int) % interval = 0 := Int.zero_emod interval
    rw [hz, hlf]
    have hcond : (0 : Int) + (events.length : Int) ≥ 0 - 0 + interval := by omega
    simp [hcond, hn]

theorem retryIter_spec (body : Int → Option GoErr) (limit : Int) :
    ∀ (fuel : Nat) (count : Int), count ≤ limit → limit - count < (fuel : Int) →
      ∃ r n, retryIter body limit count fuel = some (r, n) ∧
        1 ≤ n ∧ count + (n : Int) - 1 ≤ limit ∧
        r = body (count + (n : Int) - 1) ∧
        (∀ j : Int, count ≤ j → j < count + (n : Int) - 1 →
          ∃ e, body j = some e ∧ IsConcurrencyFault e = true) ∧
        (∀ e, r = some e → IsConcurrencyFault e = true → count + (n : Int) - 1 = limit) := by
  intro fuel
  induction fuel with
  | zero =>
      intro count h1 h2
      exfalso
      simp at h2
      omega
  | succ fuel ih =>
      intro count h1 h2
      cases hb : body count with
      | none =>
          refine ⟨none, 1, ?_, le_refl 1, by omega, ?_, ?_, ?_⟩
          · simp [retryIter, hb]
          · have : count + ((1 : Nat) : Int) - 1 = count := by omega
            rw [this, hb]
          · intro j hj1 hj2
            exfalso
            push_cast at hj2
            omega
          · intro e he
            exact absurd he (by simp)
      | some e0 =>
          by_cases hc : IsConcurrencyFault e0 = true
          · by_cases hl : count = limit
            · subst hl
              refine ⟨some e0, 1, ?_, le_refl 1, by omega, ?_, ?_, ?_⟩
              · simp [retryIter, hb, hc]
              · have : count + ((1 : Nat) : Int) - 1 = count := by omega
                rw [this, hb]
              · intro j hj1 hj2
                exfalso
                push_cast at hj2
                omega
              · intro e he hce
                push_cast
                omega
            · obtain ⟨r, n, hr, hn1, hn2, hrb, hall, hconc⟩ :=
                ih (count + 1) (by omega) (by push_cast at h2 ⊢; omega)
              refine ⟨r, n + 1, ?_, by omega, by push_cast at hn2 ⊢; omega, ?_, ?_, ?_⟩
              · simp [retryIter, hb, hc, hl, hr]
              · have : count + ((n + 1 : Nat) : Int) - 1 = (count + 1) + (n : Int) - 1 := by
                  push_cast
                  ring
                rw [this]
                exact hrb
              · intro j hj1 hj2
                rcases eq_or_lt_of_le hj1 with hj | hj
                · exact ⟨e0, by rw [← hj, hb], hc⟩
                · refine hall j (by omega) ?_
                  push_cast at hj2 ⊢
                  omega
              · intro e he hce
                have := hconc e he hce
                push_cast at this ⊢
                omega
          · refine ⟨some e0, 1, ?_, le_refl 1, by omega, ?_, ?_, ?_⟩
            · simp [retryIter, hb, hc]
            · have : count + ((1 : Nat) : Int) - 1 = count := by omega
              rw [this, hb]
            · intro j hj1 hj2
              exfalso
              push_cast at hj2
              omega
            · intro e he hce
              exfalso
              apply hc
              cases he
              exact hce

/-- C7, amended to positive limits. For every limit of at least 1, Retry exits
within the modelled iteration budget after n body invocations with 1 ≤ n ≤
limit, the returned value is exactly what the last invocation produced (nil on
success, the error otherwise, so a non-ConcurrencyFault error exits at once),
every earlier invocation produced a ConcurrencyFault (the closure is re-run
only on that fault), and a ConcurrencyFault can only be the final answer when
the limit was exhausted. -/
theorem C7_retry_bounded (limit : Int) (body : Int → Option GoErr) (h : 1 ≤ limit) :
    ∃ r n, Retry limit body = some (r, n) ∧
      1 ≤ n ∧ (n : Int) ≤ limit ∧
      r = body (n : Int) ∧
      (∀ j : Int, 1 ≤ j → j < (n : Int) → ∃ e, body j = some e ∧ IsConcurrencyFault e = true) ∧
      (∀ e, r = some e → IsConcurrencyFault e = true → (n : Int) = limit) := by
  have hcast : (limit.toNat : Int) = limit := Int.toNat_of_nonneg (by omega)
  obtain ⟨r, n, hr, hn1, hn2, hrb, hall, hconc⟩ :=
    retryIter_spec body limit limit.toNat 1 h (by omega)
  have hsimp : (1 : Int) + (n : Int) - 1 = (n : Int) := by omega
  refine ⟨r, n, hr, hn1, by omega, ?_, ?_, ?_⟩
  · rw [← hsimp]
    exact hrb
  · intro j hj1 hj2
    exact hall j hj1 (by omega)
  · intro e he hce
    have := hconc e he hce
    omega

/-- C7 counterexample. At limit 0 the loop counter starts at 1 and the
equality test against the limit never fires, so with a body that always
returns a ConcurrencyFault the loop is still running after 5 and after 50
iterations — the claim promised termination with at most 0 invocations for
every limit. -/
theorem C7_retry_zero_limit_counterexample :
    retryIter (fun _ => some (GoErr.concurrencyFault ("k") 1)) 0 1 5 = none ∧
    retryIter (fun _ => some (GoErr.concurrencyFault ("k") 1)) 0 1 50 = none ∧
    Retry 0 (fun _ => some (GoErr.concurrencyFault ("k") 1)) = none := by
  refine ⟨rfl, rfl, rfl⟩

theorem wrapperClose_all_ok :
    ∀ (cleanups : List (Nat × Option GoErr)) (inner : Option GoErr),
      (∀ p ∈ cleanups, p.2 = none) →
      wrapperClose cleanups inner = (cleanups.map Prod.fst, true, inner) := by
  intro cleanups
  induction cleanups with
  | nil => intro inner h; rfl
  | cons p rest ih =>
      intro inner h
      rcases p with ⟨id, r⟩
      have hp : r = none := h (id, r) (by simp)
      subst hp
      unfold wrapperClose
      rw [ih inner (fun q hq => h q (by simp [hq]))]
      rfl

theorem wrapperClose_first_err :
    ∀ (pre : List (Nat × Option GoErr)) (id : Nat) (e : GoErr)
      (rest : List (Nat × Option GoErr)) (inner : Option GoErr),
      (∀ p ∈ pre, p.2 = none) →
      wrapperClose (pre ++ (id, some e) :: rest) inner =
        (pre.map Prod.fst ++ [id], false, some e) := by
  intro pre
  induction pre with
  | nil => intro id e rest inner h; rfl
  | cons p pre2 ih =>
      intro id e rest inner h
      rcases p with ⟨id2, r⟩
      have hp : r = none := h (id2, r) (by simp)
      subst hp
      show (let out := wrapperClose (pre2 ++ (id, some e) :: rest) inner
        (id2 :: out.1, out.2.1, out.2.2)) =
        (List.map Prod.fst ((id2, none) :: pre2) ++ [id], false, some e)
      rw [ih id e rest inner (fun q hq => h q (by simp [hq]))]
      simp

/-- C8, amended. Close runs the cleanup callbacks in registration order but
stops at the first error: if every callback succeeds, all of them run and the
inner Close result is returned; if a callback fails, the callbacks before it
ran, its error is returned, and the remaining callbacks and the inner Close
are skipped. -/
theorem C8_close_first_error_stops (cleanups : List (Nat × Option GoErr))
    (inner : Option GoErr) :
    ((∀ p ∈ cleanups, p.2 = none) →
      wrapperClose cleanups inner = (cleanups.map Prod.fst, true, inner)) ∧
    (∀ (pre : List (Nat × Option GoErr)) (id : Nat) (e : GoErr)
        (rest : List (Nat × Option GoErr)),
      cleanups = pre ++ (id, some e) :: rest →
      (∀ p ∈ pre, p.2 = none) →
      wrapperClose cleanups inner = (pre.map Prod.fst ++ [id], false, some e)) := by
  constructor
  · exact wrapperClose_all_ok cleanups inner
  · intro pre id e rest hsplit hpre
    rw [hsplit]
    exact wrapperClose_first_err pre id e rest inner hpre

/-- C8 counterexample. Two cleanups, the first failing: Close returns the
first error but the second cleanup is not executed (its identifier 1 is not
in the run trace) and the inner Close does not run — the claim said the
remaining cleanups and the inner Close still execute. -/
theorem C8_close_counterexample :
    wrapperClose [(0, some (GoErr.custom 1)), (1, none)] none
      = ([0], false, some (GoErr.custom 1)) ∧
    ¬ ((1 : Nat) ∈ (wrapperClose [(0, some (GoErr.custom 1)), (1, none)] none).1) := by
  exact ⟨rfl, by decide⟩

/-- C9. The snapshot-base refresh wrapper swallows the RestoreSnapshot error:
with a clean reader and a stored snapshot at sequence 7, a RestoreSnapshot
failure makes refresh return success (nil) without even invoking next(), so
the caller sees a clean refresh on an aggregate whose state was never
restored — the claim said the error is returned to the caller. -/
theorem C9_refresh_swallows_restore_error :
    snapbaseRefresh false false (Except.ok (some (9, 7))) (some (GoErr.custom 1)) none
      = (none, true, false) := rfl

/-- C10. Committing a clean aggregate (empty buffer, counters agreeing, as in
every reachable clean state) is a successful no-op on both stores: against
the in-memory store the result is nil with aggregate and streams untouched,
and Commit twice equals Commit once; against the key-value engine over the
memory driver the same holds whenever the committed sequence is 0 or within
the existing stream (the reachable-state situation for the prior-sequence
check). -/
theorem C10_clean_commit_noop {σ : Type} (agg : AggregateBase σ)
    (h1 : agg.uncommittedEvents = [])
    (h2 : agg.committedSequenceNumber = agg.sequenceNumber) :
    (∀ st : InMemStreams,
       CommitThrough inmemCommitEvents agg st = (agg, st, none) ∧
       CommitThrough inmemCommitEvents
         (CommitThrough inmemCommitEvents agg st).1
         (CommitThrough inmemCommitEvents agg st).2.1
         = CommitThrough inmemCommitEvents agg st) ∧
    (∀ st : MemStreams,
       (agg.committedSequenceNumber = 0 ∨
         ∃ stream, st agg.key = some stream ∧
           agg.committedSequenceNumber ≤ (stream.length : Int)) →
       CommitThrough (kvStoreFn memOptions) agg st = (agg, st, none)) := by
  have hagg : { agg with uncommittedEvents := ([] : List GoEvent)
                         committedSequenceNumber := agg.sequenceNumber } = agg := by
    cases agg with
    | mk k c s er reg u st =>
        simp at h1 h2 ⊢
        exact ⟨h2.symm, h1⟩
  constructor
  · intro st
    have hcall : inmemCommitEvents agg.key agg.eventRegistry agg.committedSequenceNumber
        agg.uncommittedEvents agg.state st = (none, st) := by
      unfold inmemCommitEvents
      rw [h1]
      rfl
    have hmain : CommitThrough inmemCommitEvents agg st = (agg, st, none) := by
      unfold CommitThrough
      rw [hcall]
      unfold CommitResult
      simp [hagg]
    refine ⟨hmain, ?_⟩
    rw [hmain]
    exact hmain
  · intro st hst
    have hassign : assignEventKeys agg.key agg.committedSequenceNumber agg.eventRegistry
        ([] : List GoEvent) = .ok [] := rfl
    have hput : memOptions.putEvents ([] : List KeyedEvent) st = (none, st) := rfl
    have hcall : kvStoreFn memOptions agg.key agg.eventRegistry agg.committedSequenceNumber
        agg.uncommittedEvents agg.state st = (none, st) := by
      unfold kvStoreFn kvCommitEvents
      dsimp only
      rw [h1]
      by_cases hpos : agg.committedSequenceNumber > 0
      · rcases hst with h0 | ⟨stream, hs1, hs2⟩
        · exfalso; omega
        · have hchk : memOptions.checkSequence agg.key agg.committedSequenceNumber st
              = (true, none) := by
            show memCheckExists agg.key agg.committedSequenceNumber st = (true, none)
            unfold memCheckExists
            rw [hs1]
            simp [hs2]
          simp [hpos, hchk, hassign, hput]
      · simp [hpos, hassign, hput]
    have hmain : CommitThrough (kvStoreFn memOptions) agg st = (agg, st, none) := by
      unfold CommitThrough
      rw [hcall]
      unfold CommitResult
      simp [hagg]
    exact hmain

/-- Witness for C2 at a concrete store function and aggregate. -/
theorem C2_commit_atomic_witness :
    (CommitThrough
        (fun (_ : String) (_ : Registry) (_ : Int) (_ : List GoEvent) (_ : Int) (st : Nat) =>
          (some (GoErr.custom 7), st))
        (initAgg ("w") [] (0 : Int)) 0).2.2 = some (GoErr.custom 7) ∧
    (CommitThrough
        (fun (_ : String) (_ : Registry) (_ : Int) (_ : List GoEvent) (_ : Int) (st : Nat) =>
          (some (GoErr.custom 7), st))
        (initAgg ("w") [] (0 : Int)) 0).1 = initAgg ("w") [] (0 : Int) ∧
    (CommitThrough
        (fun (_ : String) (_ : Registry) (_ : Int) (_ : List GoEvent) (_ : Int) (st : Nat) =>
          (none, st))
        (initAgg ("w") [] (0 : Int)) 0).1.uncommittedEvents = [] := by
  refine ⟨?_, ?_, ?_⟩
  · exact ((C2_commit_atomic _ (initAgg ("w") [] (0 : Int)) 0).1 (GoErr.custom 7) rfl).1
  · exact ((C2_commit_atomic _ (initAgg ("w") [] (0 : Int)) 0).1 (GoErr.custom 7) rfl).2
  · exact ((C2_commit_atomic _ (initAgg ("w") [] (0 : Int)) 0).2 rfl).2.1

/-- Witness for C3 at the freshly initialized aggregate. -/
theorem C3_sequence_invariant_witness :
    (initAgg ("w") ([] : Registry) (0 : Int)).committedSequenceNumber ≤
      (initAgg ("w") ([] : Registry) (0 : Int)).sequenceNumber ∧
    (initAgg ("w") ([] : Registry) (0 : Int)).sequenceNumber -
      (initAgg ("w") ([] : Registry) (0 : Int)).committedSequenceNumber =
      ((initAgg ("w") ([] : Registry) (0 : Int)).uncommittedEvents.length : Int) := by
  refine ⟨?_, ?_⟩
  · exact C3_sequence_invariant.1 Int _ (Reach.init ("w") [] 0)
  · exact (C3_sequence_invariant.2 Int _ (ReachClean.init ("w") [] 0)).2

/-- Witness for C4: one registered event is remapped, and one unregistered
event fails the commit with no putEvents invocation. -/
theorem C4_kv_commit_witness :
    assignEventKeys ("w") 0 (RegisterEvent [] ("d.A")) [⟨"d.A", 5⟩] =
      .ok (([(⟨"d.A", 5⟩ : GoEvent)].enum.map fun p =>
        ⟨"w", 0 + (1 + (p.1 : Int)),
          (GetEventType (RegisterEvent [] ("d.A")) p.2).1, p.2⟩)) ∧
    (kvCommitEvents memOptions ("w") (RegisterEvent [] ("d.A")) 0
        [⟨"bad.B", 1⟩] (fun _ => none)).2.2 = [] ∧
    (kvCommitEvents memOptions ("w") (RegisterEvent [] ("d.A")) 0
        [⟨"bad.B", 1⟩] (fun _ => none)).1.isSome = true := by
  refine ⟨?_, ?_, ?_⟩
  · exact ((C4_kv_commit_assigns_sequences memOptions ("w") (RegisterEvent [] ("d.A")) 0
      [⟨"d.A", 5⟩] (fun _ => none)).1 (by decide)).1
  · exact ((C4_kv_commit_assigns_sequences memOptions ("w") (RegisterEvent [] ("d.A")) 0
      [⟨"bad.B", 1⟩] (fun _ => none)).2 (by decide)).1
  · exact ((C4_kv_commit_assigns_sequences memOptions ("w") (RegisterEvent [] ("d.A")) 0
      [⟨"bad.B", 1⟩] (fun _ => none)).2 (by decide)).2

/-- Witness for C5 at an event type unknown to the empty registry. -/
theorem C5_ignore_unmapped_witness :
    (ApplyEvent (initAgg ("w") [] (0 : Int)) ⟨"Unknown", 0⟩).sequenceNumber =
      (initAgg ("w") [] (0 : Int)).sequenceNumber + 1 ∧
    (ApplyEvent (initAgg ("w") [] (0 : Int)) ⟨"Unknown", 0⟩).state =
      (initAgg ("w") [] (0 : Int)).state ∧
    (ApplyEvent (initAgg ("w") [] (0 : Int)) ⟨"Unknown", 0⟩).uncommittedEvents =
      (initAgg ("w") [] (0 : Int)).uncommittedEvents ++ [⟨"Unknown", 0⟩] ∧
    (ApplyEvent (initAgg ("w") [] (0 : Int)) ⟨"Unknown", 0⟩).committedSequenceNumber =
      (initAgg ("w") [] (0 : Int)).committedSequenceNumber :=
  C5_ignore_unmapped (initAgg ("w") [] (0 : Int)) ⟨"Unknown", 0⟩ (Or.inl (by decide))

/-- Witness for C6: interval 5, start 0, five events, non-lazy. -/
theorem C6_snapshot_boundary_witness :
    ((snapbaseCommit false 5 ("w") 0 [⟨"a", 0⟩, ⟨"a", 0⟩, ⟨"a", 0⟩, ⟨"a", 0⟩, ⟨"a", 0⟩]
        none none (some 42) none).2.1
      = [(("w"), (0 : Int) +
            (([(⟨"a", 0⟩ : GoEvent), ⟨"a", 0⟩, ⟨"a", 0⟩, ⟨"a", 0⟩, ⟨"a", 0⟩]).length : Int), 42)]
      ↔ (false = true ∨
          (0 : Int) +
            (([(⟨"a", 0⟩ : GoEvent), ⟨"a", 0⟩, ⟨"a", 0⟩, ⟨"a", 0⟩, ⟨"a", 0⟩]).length : Int) ≥
            0 - 0 % 5 + 5)) ∧
    (snapbaseCommit false 5 ("w") 0 [⟨"a", 0⟩, ⟨"a", 0⟩, ⟨"a", 0⟩, ⟨"a", 0⟩, ⟨"a", 0⟩]
        none none (some 42) none).2.1 = [(("w"), (5 : Int), 42)] := by
  have h := C6_snapshot_boundary false 5 ("w") 0
    [⟨"a", 0⟩, ⟨"a", 0⟩, ⟨"a", 0⟩, ⟨"a", 0⟩, ⟨"a", 0⟩] none none 42
    (by norm_num) (by norm_num)
  exact ⟨h.1, h.2 rfl rfl (by decide)⟩

/-- Witness for C7 at limit 3 with an immediately succeeding body. -/
theorem C7_retry_bounded_witness :
    ∃ r n, Retry 3 (fun _ => none) = some (r, n) ∧
      1 ≤ n ∧ (n : Int) ≤ 3 ∧
      r = (fun (_ : Int) => (none : Option GoErr)) (n : Int) ∧
      (∀ j : Int, 1 ≤ j → j < (n : Int) →
        ∃ e, (fun (_ : Int) => (none : Option GoErr)) j = some e ∧
          IsConcurrencyFault e = true) ∧
      (∀ e, r = some e → IsConcurrencyFault e = true → (n : Int) = 3) :=
  C7_retry_bounded 3 (fun _ => none) (by norm_num)

/-- Witness for C8: a succeeding cleanup followed by a failing one. -/
theorem C8_close_first_error_stops_witness :
    wrapperClose [(5, none), (6, some (GoErr.custom 1))] none =
      ([((5 : Nat), (none : Option GoErr))].map Prod.fst ++ [6], false,
        some (GoErr.custom 1)) := by
  exact (C8_close_first_error_stops [(5, none), (6, some (GoErr.custom 1))] none).2
    [(5, none)] 6 (GoErr.custom 1) [] rfl (by decide)

/-- Witness for C10 at the freshly initialized aggregate over empty stores. -/
theorem C10_clean_commit_noop_witness :
    CommitThrough inmemCommitEvents (initAgg ("w") [] (0 : Int)) (fun _ => none) =
      (initAgg ("w") [] (0 : Int), (fun _ => none), none) ∧
    CommitThrough (kvStoreFn memOptions) (initAgg ("w") [] (0 : Int)) (fun _ => none) =
      (initAgg ("w") [] (0 : Int), (fun _ => none), none) := by
  have h := C10_clean_commit_noop (initAgg ("w") [] (0 : Int)) rfl rfl
  exact ⟨(h.1 (fun _ => none)).1, h.2 (fun _ => none) (Or.inl rfl)⟩

end EventSourcing
